import Mathlib

/-!
Verification of the smolcc compiler core (lexer, parser, type derivation,
code generator) against its natural-language specification.

The development is a shallow embedding of the C++ sources:

* `Smolcc.CharStream`, `Smolcc.Token`, `Smolcc.TokenStream` embed
  `src/lexer.h` / `src/lexer.cpp` (the evolved lexer with identifiers).
* `Smolcc.Ty`, `Smolcc.Expr`, `Smolcc.Stmt` and the `Parser` functions embed
  `src/types.h`, `src/parser.h` and `src/parser.cpp`.
* The `MainC` namespace embeds `src/main.cpp`, which is a self-contained
  earlier revision with its own integer-only token/AST definitions and the
  code generator `emit_expr` plus the driver `main`.

Machine integers (`std::size_t`, `uintmax_t`) are modelled as `Nat`; the
sources never rely on wraparound except where noted.  Fallible code
(`ASSERT` failures and `std::terminate`) is modelled by returning `none`.
Loops are modelled with an explicit fuel parameter: a loop iteration
consumes one unit of fuel and runs out of fuel only when the fuel is
smaller than the input size, so concrete evaluations use a sufficiently
large fuel.
-/

namespace Smolcc

/-- `Location` from `src/lexer.h` (lines 12-22).  `FileId` is `std::size_t`,
modelled as `Nat`.  The C++ default member initialisers give
`line = 1, col = 1, index = 0, length = 0`. -/
structure Location where
  file : Nat
  line : Nat
  col : Nat
  index : Nat
  length : Nat
deriving DecidableEq, Repr

/-- The `Location(FileId)` constructor: every other field takes its default. -/
def Location.start (file : Nat) : Location :=
  ⟨file, 1, 1, 0, 0⟩

/-- `CharStream` from `src/lexer.h` (lines 24-68): a cursor over the source
buffer with the `current_loc` / `next_loc` pair of locations.  The
`std::string contents` is modelled as a `List Char`. -/
structure CharStream where
  contents : List Char
  current_loc : Location
  next_loc : Location
deriving DecidableEq, Repr

/-- The `CharStream(FileId, std::string)` constructor. -/
def CharStream.start (file : Nat) (contents : List Char) : CharStream :=
  ⟨contents, Location.start file, Location.start file⟩

/-- `CharStream::peek`: the byte at `next_loc.index`, or empty at EOF. -/
def CharStream.peek (s : CharStream) : Option Char :=
  s.contents.get? s.next_loc.index

/-- `CharStream::get`: returns the byte at `next_loc.index` and advances,
growing `current_loc.length` by one and bumping line/col on a newline. -/
def CharStream.get (s : CharStream) : Option Char × CharStream :=
  match s.peek with
  | none => (none, s)
  | some ch =>
      let next₁ : Location :=
        { s.next_loc with index := s.next_loc.index + 1, col := s.next_loc.col + 1 }
      let next₂ : Location :=
        if ch = '\n' then { next₁ with line := next₁.line + 1, col := 1 } else next₁
      (some ch,
       { s with
         current_loc := { s.current_loc with length := s.current_loc.length + 1 },
         next_loc := next₂ })

/-- `CharStream::consume_if`. -/
def CharStream.consume_if (s : CharStream) (ch : Char) : Bool × CharStream :=
  if s.peek = some ch then (true, (s.get).2) else (false, s)

/-- `CharStream::loc`. -/
def CharStream.loc (s : CharStream) : Location := s.current_loc

/-- `CharStream::new_loc`: commit `current_loc := next_loc`. -/
def CharStream.new_loc (s : CharStream) : CharStream :=
  { s with current_loc := s.next_loc }

/-- The states of a `CharStream` reachable from a freshly constructed stream
by any sequence of `peek` / `get` / `consume_if` / `new_loc` calls (`peek`
and `loc` are `const` and do not change the state). -/
inductive CharStream.Reachable : CharStream → Prop where
  | start (file : Nat) (contents : List Char) :
      Reachable (CharStream.start file contents)
  | get (s : CharStream) : Reachable s → Reachable (s.get).2
  | consume_if (s : CharStream) (ch : Char) :
      Reachable s → Reachable (s.consume_if ch).2
  | new_loc (s : CharStream) : Reachable s → Reachable s.new_loc

/-- `PunctuatorKind` from `src/lexer.h` (lines 77-131). -/
inductive PunctuatorKind where
  | lbracket | rbracket | lparen | rparen | lbrace | rbrace | dot | arrow
  | plusPlus | minusMinus | and | star | plus | minus | tilde | not
  | slash | modulo | llAngle | rrAngle | lAngle | rAngle | lAngleEq | rAngleEq
  | eqEq | notEq | caret | or | andAnd | orOr
  | query | colon | semi | dotDotDot
  | eq | starEq | slashEq | moduloEq | plusEq | minusEq
  | llAngleEq | rrAngleEq | andEq | caretEq | orEq
  | comma | hash | hashHash
deriving DecidableEq, Repr

/-- `Token` from `src/lexer.h` (lines 133-164).  The C++ struct is a tagged
record (`kind` plus the fields used by that kind); it is modelled as the
corresponding sum type.  `uintmax_t value` is modelled as `Nat`. -/
inductive Token where
  | endOfFile (loc : Location)
  | integerConstant (loc : Location) (value : Nat)
  | punctuator (loc : Location) (k : PunctuatorKind)
  | identifier (loc : Location) (payload : String)
deriving DecidableEq, Repr

/-- The `loc` field common to every token. -/
def Token.loc : Token → Location
  | .endOfFile l => l
  | .integerConstant l _ => l
  | .punctuator l _ => l
  | .identifier l _ => l

/-- `isspace` from `src/lexer.cpp` (lines 10-12): space, tab, vertical tab,
carriage return, newline.  (`'\v'` is `Char.ofNat 11`.) -/
def isspace (ch : Option Char) : Bool :=
  ch = some ' ' || ch = some '\t' || ch = some (Char.ofNat 11) ||
    ch = some '\r' || ch = some '\n'

/-- `isdecimaldigit` from `src/lexer.cpp` (lines 14-16). -/
def isdecimaldigit (ch : Option Char) : Bool :=
  match ch with
  | some c => '0' ≤ c && c ≤ '9'
  | none => false

/-- `isidentifiernondigit` from `src/lexer.cpp` (lines 18-20). -/
def isidentifiernondigit (ch : Option Char) : Bool :=
  match ch with
  | some c => c = '_' || ('a' ≤ c && c ≤ 'z') || ('A' ≤ c && c ≤ 'Z')
  | none => false

/-- `std::atoll` as called at `src/lexer.cpp` line 41 on the accumulated
digit string.  `atoll` parses a *signed* `long long`; for the nonempty
decimal-digit strings the lexer passes it, glibc's implementation
(`strtoll` base 10) returns the value, saturated at `LLONG_MAX = 2^63 - 1`
on overflow (ISO C leaves the overflowing case undefined; glibc saturates). -/
def atoll (s : List Char) : Int :=
  let v : Nat := s.foldl (fun acc c => 10 * acc + (c.toNat - '0'.toNat)) 0
  min (v : Int) (2 ^ 63 - 1)

/-- `static_cast<uintmax_t>` applied to the `long long` result of `atoll`:
conversion to the unsigned 64-bit type is reduction modulo `2^64`. -/
def castUintmax (i : Int) : Nat :=
  (i % (2 : Int) ^ 64).toNat

/-- The accumulation loops of `TokenStream::tok` (`src/lexer.cpp` lines
38-40 and 48-50): a do-while that `get`s one character then keeps `get`ting
while `p (peek)` holds.  `fuel` bounds the number of additional iterations;
it never runs out when `fuel` is at least the length of the input. -/
def lexRun (p : Option Char → Bool) : Nat → CharStream → List Char × CharStream
  | 0, s =>
      match s.get with
      | (none, s₁) => ([], s₁)
      | (some c, s₁) => ([c], s₁)
  | fuel + 1, s =>
      match s.get with
      | (none, s₁) => ([], s₁)
      | (some c, s₁) =>
          if p s₁.peek then
            let r := lexRun p fuel s₁
            (c :: r.1, r.2)
          else ([c], s₁)

/-- The whitespace-skipping loop at `src/lexer.cpp` lines 24-26. -/
def skipWs : Nat → CharStream → CharStream
  | 0, s => s
  | fuel + 1, s => if isspace s.peek then skipWs fuel (s.get).2 else s

/-- The dispatch `switch` of `TokenStream::tok` (`src/lexer.cpp` lines
35-204), entered with `c = *inner.peek()` after `new_loc()`.  Each `case`
is translated in order; a failed `ASSERT` (the third dot of `...`, the
`//` comment case) and the fall-through `std::terminate()` for an
unrecognised character are `none`. -/
def dispatch (fuel : Nat) (c : Char) (s : CharStream) : Option (Token × CharStream) :=
  if isdecimaldigit (some c) then
    -- case '0' ... '9'
    let r := lexRun isdecimaldigit fuel s
    some (.integerConstant r.2.loc (castUintmax (atoll r.1)), r.2)
  else if isidentifiernondigit (some c) then
    -- case '_', 'a' ... 'z', 'A' ... 'Z'
    let r := lexRun (fun o => isdecimaldigit o || isidentifiernondigit o) fuel s
    some (.identifier r.2.loc (String.mk r.1), r.2)
  else if c = '[' then
    let s₁ := (s.get).2
    some (.punctuator s₁.loc .lbracket, s₁)
  else if c = ']' then
    let s₁ := (s.get).2
    some (.punctuator s₁.loc .rbracket, s₁)
  else if c = '(' then
    let s₁ := (s.get).2
    some (.punctuator s₁.loc .lparen, s₁)
  else if c = ')' then
    let s₁ := (s.get).2
    some (.punctuator s₁.loc .rparen, s₁)
  else if c = Char.ofNat 123 then
    -- '\x7b'
    let s₁ := (s.get).2
    some (.punctuator s₁.loc .lbrace, s₁)
  else if c = Char.ofNat 125 then
    -- '\x7d'
    let s₁ := (s.get).2
    some (.punctuator s₁.loc .rbrace, s₁)
  else if c = '.' then
    let s₁ := (s.get).2
    let r := s₁.consume_if '.'
    if r.1 then
      let r₂ := r.2.consume_if '.'
      if r₂.1 then some (.punctuator r₂.2.loc .dotDotDot, r₂.2)
      else none
    else some (.punctuator r.2.loc .dot, r.2)
  else if c = '&' then
    let s₁ := (s.get).2
    let r := s₁.consume_if '&'
    if r.1 then some (.punctuator r.2.loc .andAnd, r.2)
    else
      let r₂ := r.2.consume_if '='
      if r₂.1 then some (.punctuator r₂.2.loc .andEq, r₂.2)
      else some (.punctuator r₂.2.loc .and, r₂.2)
  else if c = '|' then
    let s₁ := (s.get).2
    let r := s₁.consume_if '|'
    if r.1 then some (.punctuator r.2.loc .orOr, r.2)
    else
      let r₂ := r.2.consume_if '='
      if r₂.1 then some (.punctuator r₂.2.loc .orEq, r₂.2)
      else some (.punctuator r₂.2.loc .or, r₂.2)
  else if c = '^' then
    let s₁ := (s.get).2
    let r := s₁.consume_if '='
    if r.1 then some (.punctuator r.2.loc .caretEq, r.2)
    else some (.punctuator r.2.loc .caret, r.2)
  else if c = '~' then
    let s₁ := (s.get).2
    some (.punctuator s₁.loc .tilde, s₁)
  else if c = '!' then
    let s₁ := (s.get).2
    let r := s₁.consume_if '='
    if r.1 then some (.punctuator r.2.loc .notEq, r.2)
    else some (.punctuator r.2.loc .not, r.2)
  else if c = '+' then
    let s₁ := (s.get).2
    let r := s₁.consume_if '+'
    if r.1 then some (.punctuator r.2.loc .plusPlus, r.2)
    else
      let r₂ := r.2.consume_if '='
      if r₂.1 then some (.punctuator r₂.2.loc .plusEq, r₂.2)
      else some (.punctuator r₂.2.loc .plus, r₂.2)
  else if c = '-' then
    let s₁ := (s.get).2
    let r := s₁.consume_if '-'
    if r.1 then some (.punctuator r.2.loc .minusMinus, r.2)
    else
      let r₂ := r.2.consume_if '>'
      if r₂.1 then some (.punctuator r₂.2.loc .arrow, r₂.2)
      else
        let r₃ := r₂.2.consume_if '='
        if r₃.1 then some (.punctuator r₃.2.loc .minusEq, r₃.2)
        else some (.punctuator r₃.2.loc .minus, r₃.2)
  else if c = '*' then
    let s₁ := (s.get).2
    let r := s₁.consume_if '='
    if r.1 then some (.punctuator r.2.loc .starEq, r.2)
    else some (.punctuator r.2.loc .star, r.2)
  else if c = '/' then
    let s₁ := (s.get).2
    let r := s₁.consume_if '/'
    if r.1 then none
    else
      let r₂ := r.2.consume_if '='
      if r₂.1 then some (.punctuator r₂.2.loc .slashEq, r₂.2)
      else some (.punctuator r₂.2.loc .slash, r₂.2)
  else if c = '%' then
    let s₁ := (s.get).2
    let r := s₁.consume_if '='
    if r.1 then some (.punctuator r.2.loc .moduloEq, r.2)
    else some (.punctuator r.2.loc .modulo, r.2)
  else if c = '<' then
    let s₁ := (s.get).2
    let r := s₁.consume_if '<'
    if r.1 then
      let r₂ := r.2.consume_if '='
      if r₂.1 then some (.punctuator r₂.2.loc .llAngleEq, r₂.2)
      else some (.punctuator r₂.2.loc .llAngle, r₂.2)
    else
      let r₂ := r.2.consume_if '='
      if r₂.1 then some (.punctuator r₂.2.loc .lAngleEq, r₂.2)
      else some (.punctuator r₂.2.loc .lAngle, r₂.2)
  else if c = '>' then
    let s₁ := (s.get).2
    let r := s₁.consume_if '>'
    if r.1 then
      let r₂ := r.2.consume_if '='
      if r₂.1 then some (.punctuator r₂.2.loc .rrAngleEq, r₂.2)
      else some (.punctuator r₂.2.loc .rrAngle, r₂.2)
    else
      let r₂ := r.2.consume_if '='
      if r₂.1 then some (.punctuator r₂.2.loc .rAngleEq, r₂.2)
      else some (.punctuator r₂.2.loc .rAngle, r₂.2)
  else if c = '?' then
    let s₁ := (s.get).2
    some (.punctuator s₁.loc .query, s₁)
  else if c = ':' then
    let s₁ := (s.get).2
    some (.punctuator s₁.loc .colon, s₁)
  else if c = ';' then
    let s₁ := (s.get).2
    some (.punctuator s₁.loc .semi, s₁)
  else if c = '=' then
    let s₁ := (s.get).2
    let r := s₁.consume_if '='
    if r.1 then some (.punctuator r.2.loc .eqEq, r.2)
    else some (.punctuator r.2.loc .eq, r.2)
  else if c = ',' then
    let s₁ := (s.get).2
    some (.punctuator s₁.loc .comma, s₁)
  else if c = '#' then
    let s₁ := (s.get).2
    let r := s₁.consume_if '#'
    if r.1 then some (.punctuator r.2.loc .hashHash, r.2)
    else some (.punctuator r.2.loc .hash, r.2)
  else none

/-- `TokenStream::tok` from `src/lexer.cpp` (lines 22-210), acting on the
inner `CharStream` and the `last_loc` member.  The outer
`while (inner.peek())` loop never iterates a second time (every `switch`
case returns or terminates), so it is modelled as: skip whitespace, emit
`EndOfFile` at end of input, otherwise commit `new_loc`, record
`last_loc`, and dispatch on the lookahead character. -/
def tokCore (fuel : Nat) (s : CharStream) (last : Location) :
    Option (Token × CharStream × Location) :=
  let s₁ := skipWs fuel s
  match s₁.peek with
  | none => some (.endOfFile s₁.loc, s₁, last)
  | some c =>
      let s₂ := s₁.new_loc
      (dispatch fuel c s₂).map (fun r => (r.1, r.2, s₂.loc))

/-- `TokenStream` from `src/lexer.h` (lines 166-218): the lazily filled
one-token lookahead `current`, the `last_loc` of the most recently lexed
token, and the inner `CharStream`. -/
structure TokenStream where
  current : Option Token
  last_loc : Location
  inner : CharStream
deriving DecidableEq, Repr

/-- A freshly constructed `TokenStream` over a source string (the `last_loc`
member is default-constructed in C++; its `file` is modelled as `file`). -/
def TokenStream.start (file : Nat) (src : String) : TokenStream :=
  ⟨none, Location.start file, CharStream.start file src.toList⟩

/-- `TokenStream::tok` at the `TokenStream` level: lexes one token, updating
`inner` and `last_loc` and leaving the lookahead slot unchanged. -/
def TokenStream.tok (fuel : Nat) (ts : TokenStream) : Option (Token × TokenStream) :=
  (tokCore fuel ts.inner ts.last_loc).map
    (fun r => (r.1, ⟨ts.current, r.2.2, r.2.1⟩))

/-- `TokenStream::peek` (`src/lexer.h` lines 171-175): return the lookahead,
lazily filling it with `tok()`. -/
def TokenStream.peek (fuel : Nat) (ts : TokenStream) : Option (Token × TokenStream) :=
  match ts.current with
  | some t => some (t, ts)
  | none => (ts.tok fuel).map (fun r => (r.1, { r.2 with current := some r.1 }))

/-- `TokenStream::next` (`src/lexer.h` lines 201-205): return and clear the
lookahead, or lex directly if the slot is empty. -/
def TokenStream.next (fuel : Nat) (ts : TokenStream) : Option (Token × TokenStream) :=
  match ts.current with
  | none => ts.tok fuel
  | some t => some (t, { ts with current := none })

/-- `PrimitiveTypeKind` from `src/types.h` (lines 28-30). -/
inductive PrimitiveTypeKind where
  | int
deriving DecidableEq, Repr

/-- The `Type` hierarchy of `src/types.h` (`InvalidType`, `PrimitiveType`,
`PointerType`), re-expressed as the sum type over the three leaf classes
(the spec's §9 notes this is the intended purification of the clonable
class hierarchy).  Named `Ty` because `Type` is reserved in Lean. -/
inductive Ty where
  | invalid
  | primitive (kind : PrimitiveTypeKind)
  | pointer (base : Ty)
deriving DecidableEq, Repr

/-- `Type::is_pointer`: the virtual defaults to `false`; `PointerType`
overrides it to `true`. -/
def Ty.is_pointer : Ty → Bool
  | .pointer _ => true
  | _ => false

/-- `make_invalid_type` from `src/types.h`. -/
def make_invalid_type : Ty := .invalid

/-- `make_int_type` from `src/types.h`. -/
def make_int_type : Ty := .primitive .int

/-- `make_ptr_type` from `src/types.h`. -/
def make_ptr_type (base : Ty) : Ty := .pointer base

/-- `UnOpKind` from `src/parser.h` (lines 46-51). -/
inductive UnOpKind where
  | addressOf | dereference | posate | negate
deriving DecidableEq, Repr

/-- `BinOpKind` from `src/parser.h` (lines 74-93). -/
inductive BinOpKind where
  | add | subtract | multiply | divide | modulo | lshift | rshift
  | lessThan | greaterThan | lessThanEqual | greaterThanEqual
  | equal | notEqual | bitAnd | bitXor | bitOr | logicalAnd | logicalOr
deriving DecidableEq, Repr

/-- The `Expr` hierarchy of `src/parser.h` (`IntegerConstantExpr`,
`VariableExpr`, `UnOpExpr`, `BinOpExpr`, `AssignExpr`), as a sum type.
Every node carries its `Location`. -/
inductive Expr where
  | integerConstantExpr (loc : Location) (value : Nat)
  | variableExpr (loc : Location) (ident : String)
  | unOpExpr (loc : Location) (op : UnOpKind) (e : Expr)
  | binOpExpr (loc : Location) (op : BinOpKind) (lhs rhs : Expr)
  | assignExpr (loc : Location) (lhs rhs : Expr)
deriving DecidableEq, Repr

/-- The `loc` field of the `Expr` base class. -/
def Expr.loc : Expr → Location
  | .integerConstantExpr l _ => l
  | .variableExpr l _ => l
  | .unOpExpr l _ _ => l
  | .binOpExpr l _ _ _ => l
  | .assignExpr l _ _ => l

/-- The virtual `type()` methods of the `Expr` hierarchy (`src/parser.h`
lines 35, 43, 60-71, 103-138, 148), collapsed into one recursive function:
  * `IntegerConstantExpr::type`, `VariableExpr::type`: `make_int_type()`;
  * `UnOpExpr::type`: `AddressOf` wraps in a pointer, `Dereference`
    unwraps a pointer and yields int otherwise, `Posate`/`Negate` pass
    the operand type through;
  * `BinOpExpr::type`: the `switch` on the 18 kinds;
  * `AssignExpr::type`: the type of its `lhs`. -/
def Expr.type : Expr → Ty
  | .integerConstantExpr _ _ => make_int_type
  | .variableExpr _ _ => make_int_type
  | .unOpExpr _ op e =>
      let et := e.type
      match op with
      | .addressOf => make_ptr_type et
      | .dereference =>
          -- et->is_pointer() ? et.cast<PointerType>()->base : make_int_type()
          match et with
          | .pointer base => base
          | _ => make_int_type
      | .posate => et
      | .negate => et
  | .binOpExpr _ op lhs rhs =>
      let lt := lhs.type
      let rt := rhs.type
      match op with
      | .add =>
          if lt.is_pointer && rt.is_pointer then make_invalid_type
          else if rt.is_pointer then rt
          else lt
      | .subtract =>
          if lt.is_pointer && rt.is_pointer then make_int_type
          else if rt.is_pointer then make_invalid_type
          else lt
      | .multiply | .divide | .modulo | .lshift | .rshift
      | .bitAnd | .bitXor | .bitOr => lt
      | .lessThan | .greaterThan | .lessThanEqual | .greaterThanEqual
      | .equal | .notEqual | .logicalAnd | .logicalOr => make_int_type
  | .assignExpr _ lhs _ => lhs.type

/-- The `Stmt` hierarchy of `src/parser.h` (`CompoundStmt`, `ExprStmt`,
`IfStmt`, `LoopStmt`, `ReturnStmt`, `DeclStmt`), as a sum type.  Nullable
`ExprVal`/`StmtVal` members become `Option`. -/
inductive Stmt where
  | compoundStmt (loc : Location) (items : List Stmt)
  | exprStmt (loc : Location) (e : Option Expr)
  | ifStmt (loc : Location) (cond : Expr) (then_ : Stmt) (else_ : Option Stmt)
  | loopStmt (loc : Location) (init cond incr : Option Expr) (then_ : Stmt)
  | returnStmt (loc : Location) (e : Option Expr)
  | declStmt (loc : Location) (ident : String)
deriving Repr

/-- The token source seen by `Parser` (`src/parser.cpp`), modelled as the
list of tokens the inner `TokenStream` will produce, together with the
`last_loc` of the most recently consumed token.  (The `TokenStream`
lookahead protocol is transparent to the parser: `peek` is idempotent and
`next` returns the peeked token, see the C10 theorem below.  The stream
ends in an unbounded run of `EndOfFile` tokens; `peekTok` on an exhausted
list reproduces that.  `last_loc` in the source is updated when a token is
*lexed*; here it is updated when a token is consumed, which coincides for
every token a `Parser` method reads before calling `loc()`.) -/
structure ParserState where
  toks : List Token
  lastLoc : Location
deriving DecidableEq, Repr

/-- The token `TokenStream::peek` would return. -/
def ParserState.peekTok (s : ParserState) : Token :=
  s.toks.headD (.endOfFile s.lastLoc)

/-- The token and state `TokenStream::next` would return. -/
def ParserState.nextTok (s : ParserState) : Token × ParserState :=
  let t := s.peekTok
  (t, ⟨s.toks.tail, t.loc⟩)

/-- `TokenStream::loc`. -/
def ParserState.loc (s : ParserState) : Location := s.lastLoc

/-- `TokenStream::peek(PunctuatorKind)` (`src/lexer.h` lines 177-179). -/
def ParserState.peekIs (s : ParserState) (k : PunctuatorKind) : Bool :=
  match s.peekTok with
  | .punctuator _ k' => k' = k
  | _ => false

/-- `TokenStream::peek_identifier` (`src/lexer.h` lines 181-183). -/
def ParserState.peek_identifier (s : ParserState) (id : String) : Bool :=
  match s.peekTok with
  | .identifier _ payload => payload = id
  | _ => false

/-- `TokenStream::consume_if` (`src/lexer.h` lines 185-191). -/
def ParserState.consume_if (s : ParserState) (k : PunctuatorKind) : Bool × ParserState :=
  if s.peekIs k then (true, (s.nextTok).2) else (false, s)

/-- `TokenStream::consume_if_identifier` (`src/lexer.h` lines 193-199). -/
def ParserState.consume_if_identifier (s : ParserState) (id : String) : Bool × ParserState :=
  if s.peek_identifier id then (true, (s.nextTok).2) else (false, s)

/-!
The `Parser` methods of `src/parser.cpp`, one Lean function per method.
Each `while (true)` iteration loop becomes a `…Loop` helper.  A failed
`ASSERT` is `none`.  `fuel` decreases on every call; it runs out only on
inputs larger than the fuel.  (C++ leaves the evaluation order of the
`make_expr(inner.loc(), …)` arguments unspecified, so the `Location`
stored in nodes built by the expression loops is modelled loosely — it is
read *after* the right operand is parsed; no theorem below depends on
expression-node locations.)
-/

/-- The `Parser` of `src/parser.cpp` as a bundle of its methods: one field
per method of the `Parser` class (each `while (true)` iteration loop as an
extra `…Loop` field).  The bundle is built by recursion on fuel below, so
that a method at fuel `n + 1` makes every call through the bundle at fuel
`n`, and every method at fuel `0` fails. -/
structure ParserFns where
  primary_expression : ParserState → Option (Expr × ParserState)
  postfix_expression : ParserState → Option (Expr × ParserState)
  unary_expression : ParserState → Option (Expr × ParserState)
  cast_expression : ParserState → Option (Expr × ParserState)
  multiplicative_expression : ParserState → Option (Expr × ParserState)
  multiplicativeLoop : Expr → ParserState → Option (Expr × ParserState)
  additive_expression : ParserState → Option (Expr × ParserState)
  additiveLoop : Expr → ParserState → Option (Expr × ParserState)
  shift_expression : ParserState → Option (Expr × ParserState)
  shiftLoop : Expr → ParserState → Option (Expr × ParserState)
  relational_expression : ParserState → Option (Expr × ParserState)
  relationalLoop : Expr → ParserState → Option (Expr × ParserState)
  equality_expression : ParserState → Option (Expr × ParserState)
  equalityLoop : Expr → ParserState → Option (Expr × ParserState)
  and_expression : ParserState → Option (Expr × ParserState)
  andLoop : Expr → ParserState → Option (Expr × ParserState)
  exclusive_or_expression : ParserState → Option (Expr × ParserState)
  exclusiveOrLoop : Expr → ParserState → Option (Expr × ParserState)
  inclusive_or_expression : ParserState → Option (Expr × ParserState)
  inclusiveOrLoop : Expr → ParserState → Option (Expr × ParserState)
  logical_and_expression : ParserState → Option (Expr × ParserState)
  logicalAndLoop : Expr → ParserState → Option (Expr × ParserState)
  logical_or_expression : ParserState → Option (Expr × ParserState)
  logicalOrLoop : Expr → ParserState → Option (Expr × ParserState)
  conditional_expression : ParserState → Option (Expr × ParserState)
  assignment_expression : ParserState → Option (Expr × ParserState)
  expression : ParserState → Option (Expr × ParserState)
  compound_statement : ParserState → Option (Stmt × ParserState)
  compoundLoop : ParserState → Option (List Stmt × ParserState)
  expression_statement : ParserState → Option (Stmt × ParserState)
  if_statement : ParserState → Option (Stmt × ParserState)
  while_statement : ParserState → Option (Stmt × ParserState)
  for_statement : ParserState → Option (Stmt × ParserState)
  return_statement : ParserState → Option (Stmt × ParserState)
  statement : ParserState → Option (Stmt × ParserState)
  declaration : ParserState → Option (Stmt × ParserState)

/-- The fuel-0 parser: every method fails. -/
def ParserFns.bottom : ParserFns where
  primary_expression _ := none
  postfix_expression _ := none
  unary_expression _ := none
  cast_expression _ := none
  multiplicative_expression _ := none
  multiplicativeLoop _ _ := none
  additive_expression _ := none
  additiveLoop _ _ := none
  shift_expression _ := none
  shiftLoop _ _ := none
  relational_expression _ := none
  relationalLoop _ _ := none
  equality_expression _ := none
  equalityLoop _ _ := none
  and_expression _ := none
  andLoop _ _ := none
  exclusive_or_expression _ := none
  exclusiveOrLoop _ _ := none
  inclusive_or_expression _ := none
  inclusiveOrLoop _ _ := none
  logical_and_expression _ := none
  logicalAndLoop _ _ := none
  logical_or_expression _ := none
  logicalOrLoop _ _ := none
  conditional_expression _ := none
  assignment_expression _ := none
  expression _ := none
  compound_statement _ := none
  compoundLoop _ := none
  expression_statement _ := none
  if_statement _ := none
  while_statement _ := none
  for_statement _ := none
  return_statement _ := none
  statement _ := none
  declaration _ := none

/-- One fuel level of the `Parser` methods of `src/parser.cpp`: each method
translated line by line, with recursive calls taken from the previous
level `p`.  A failed `ASSERT` is `none`. -/
def ParserFns.step (p : ParserFns) : ParserFns where

  -- `Parser::primary_expression` (`src/parser.cpp` lines 21-42).
  primary_expression s :=
      let r := s.consume_if .lparen
      if r.1 then do
        let (result, s₁) ← p.expression r.2
        let r₂ := s₁.consume_if .rparen
        if r₂.1 then some (result, r₂.2) else none
      else
        let (t, s₁) := r.2.nextTok
        match t with
        | .integerConstant _ value => some (.integerConstantExpr s₁.loc value, s₁)
        | .identifier _ payload => some (.variableExpr s₁.loc payload, s₁)
        | _ => none

  -- `Parser::postfix_expression` (`src/parser.cpp` lines 44-47).
  postfix_expression s := p.primary_expression s

  -- `Parser::unary_expression` (`src/parser.cpp` lines 49-64).
  unary_expression s :=
      let r := s.consume_if .and
      if r.1 then do
        let (e, s₁) ← p.cast_expression r.2
        some (.unOpExpr s₁.loc .addressOf e, s₁)
      else
        let r₂ := r.2.consume_if .star
        if r₂.1 then do
          let (e, s₁) ← p.cast_expression r₂.2
          some (.unOpExpr s₁.loc .dereference e, s₁)
        else
          let r₃ := r₂.2.consume_if .plus
          if r₃.1 then do
            let (e, s₁) ← p.cast_expression r₃.2
            some (.unOpExpr s₁.loc .posate e, s₁)
          else
            let r₄ := r₃.2.consume_if .minus
            if r₄.1 then do
              let (e, s₁) ← p.cast_expression r₄.2
              some (.unOpExpr s₁.loc .negate e, s₁)
            else p.postfix_expression r₄.2

  -- `Parser::cast_expression` (`src/parser.cpp` lines 66-69).
  cast_expression s := p.unary_expression s

  -- `Parser::multiplicative_expression` (`src/parser.cpp` lines 71-84).
  multiplicative_expression s := do
      let (e, s₁) ← p.cast_expression s
      p.multiplicativeLoop e s₁

  -- The `while (true)` loop of `Parser::multiplicative_expression`.
  multiplicativeLoop e s :=
      let r := s.consume_if .star
      if r.1 then do
        let (rhs, s₁) ← p.cast_expression r.2
        p.multiplicativeLoop (.binOpExpr s₁.loc .multiply e rhs) s₁
      else
        let r₂ := r.2.consume_if .slash
        if r₂.1 then do
          let (rhs, s₁) ← p.cast_expression r₂.2
          p.multiplicativeLoop (.binOpExpr s₁.loc .divide e rhs) s₁
        else
          let r₃ := r₂.2.consume_if .modulo
          if r₃.1 then do
            let (rhs, s₁) ← p.cast_expression r₃.2
            p.multiplicativeLoop (.binOpExpr s₁.loc .modulo e rhs) s₁
          else some (e, r₃.2)

  -- `Parser::additive_expression` (`src/parser.cpp` lines 86-97).
  additive_expression s := do
      let (e, s₁) ← p.multiplicative_expression s
      p.additiveLoop e s₁

  -- The `while (true)` loop of `Parser::additive_expression`.
  additiveLoop e s :=
      let r := s.consume_if .plus
      if r.1 then do
        let (rhs, s₁) ← p.multiplicative_expression r.2
        p.additiveLoop (.binOpExpr s₁.loc .add e rhs) s₁
      else
        let r₂ := r.2.consume_if .minus
        if r₂.1 then do
          let (rhs, s₁) ← p.multiplicative_expression r₂.2
          p.additiveLoop (.binOpExpr s₁.loc .subtract e rhs) s₁
        else some (e, r₂.2)

  -- `Parser::shift_expression` (`src/parser.cpp` lines 99-110).
  shift_expression s := do
      let (e, s₁) ← p.additive_expression s
      p.shiftLoop e s₁

  -- The `while (true)` loop of `Parser::shift_expression`.
  shiftLoop e s :=
      let r := s.consume_if .llAngle
      if r.1 then do
        let (rhs, s₁) ← p.additive_expression r.2
        p.shiftLoop (.binOpExpr s₁.loc .lshift e rhs) s₁
      else
        let r₂ := r.2.consume_if .rrAngle
        if r₂.1 then do
          let (rhs, s₁) ← p.additive_expression r₂.2
          p.shiftLoop (.binOpExpr s₁.loc .rshift e rhs) s₁
        else some (e, r₂.2)

  -- `Parser::relational_expression` (`src/parser.cpp` lines 112-127).
  relational_expression s := do
      let (e, s₁) ← p.shift_expression s
      p.relationalLoop e s₁

  -- The `while (true)` loop of `Parser::relational_expression`.
  relationalLoop e s :=
      let r := s.consume_if .lAngle
      if r.1 then do
        let (rhs, s₁) ← p.shift_expression r.2
        p.relationalLoop (.binOpExpr s₁.loc .lessThan e rhs) s₁
      else
        let r₂ := r.2.consume_if .rAngle
        if r₂.1 then do
          let (rhs, s₁) ← p.shift_expression r₂.2
          p.relationalLoop (.binOpExpr s₁.loc .greaterThan e rhs) s₁
        else
          let r₃ := r₂.2.consume_if .lAngleEq
          if r₃.1 then do
            let (rhs, s₁) ← p.shift_expression r₃.2
            p.relationalLoop (.binOpExpr s₁.loc .lessThanEqual e rhs) s₁
          else
            let r₄ := r₃.2.consume_if .rAngleEq
            if r₄.1 then do
              let (rhs, s₁) ← p.shift_expression r₄.2
              p.relationalLoop (.binOpExpr s₁.loc .greaterThanEqual e rhs) s₁
            else some (e, r₄.2)

  -- `Parser::equality_expression` (`src/parser.cpp` lines 129-140).
  equality_expression s := do
      let (e, s₁) ← p.relational_expression s
      p.equalityLoop e s₁

  -- The `while (true)` loop of `Parser::equality_expression`.
  equalityLoop e s :=
      let r := s.consume_if .eqEq
      if r.1 then do
        let (rhs, s₁) ← p.relational_expression r.2
        p.equalityLoop (.binOpExpr s₁.loc .equal e rhs) s₁
      else
        let r₂ := r.2.consume_if .notEq
        if r₂.1 then do
          let (rhs, s₁) ← p.relational_expression r₂.2
          p.equalityLoop (.binOpExpr s₁.loc .notEqual e rhs) s₁
        else some (e, r₂.2)

  -- `Parser::and_expression` (`src/parser.cpp` lines 142-151).
  and_expression s := do
      let (e, s₁) ← p.equality_expression s
      p.andLoop e s₁

  -- The `while (true)` loop of `Parser::and_expression`.
  andLoop e s :=
      let r := s.consume_if .and
      if r.1 then do
        let (rhs, s₁) ← p.equality_expression r.2
        p.andLoop (.binOpExpr s₁.loc .bitAnd e rhs) s₁
      else some (e, r.2)

  -- `Parser::exclusive_or_expression` (`src/parser.cpp` lines 153-162).
  exclusive_or_expression s := do
      let (e, s₁) ← p.and_expression s
      p.exclusiveOrLoop e s₁

  -- The `while (true)` loop of `Parser::exclusive_or_expression`.
  exclusiveOrLoop e s :=
      let r := s.consume_if .caret
      if r.1 then do
        let (rhs, s₁) ← p.and_expression r.2
        p.exclusiveOrLoop (.binOpExpr s₁.loc .bitXor e rhs) s₁
      else some (e, r.2)

  -- `Parser::inclusive_or_expression` (`src/parser.cpp` lines 164-173).
  inclusive_or_expression s := do
      let (e, s₁) ← p.exclusive_or_expression s
      p.inclusiveOrLoop e s₁

  -- The `while (true)` loop of `Parser::inclusive_or_expression`.
  inclusiveOrLoop e s :=
      let r := s.consume_if .or
      if r.1 then do
        let (rhs, s₁) ← p.exclusive_or_expression r.2
        p.inclusiveOrLoop (.binOpExpr s₁.loc .bitOr e rhs) s₁
      else some (e, r.2)

  -- `Parser::logical_and_expression` (`src/parser.cpp` lines 175-184).
  logical_and_expression s := do
      let (e, s₁) ← p.inclusive_or_expression s
      p.logicalAndLoop e s₁

  -- The `while (true)` loop of `Parser::logical_and_expression`.
  logicalAndLoop e s :=
      let r := s.consume_if .andAnd
      if r.1 then do
        let (rhs, s₁) ← p.inclusive_or_expression r.2
        p.logicalAndLoop (.binOpExpr s₁.loc .logicalAnd e rhs) s₁
      else some (e, r.2)

  -- `Parser::logical_or_expression` (`src/parser.cpp` lines 186-195).
  logical_or_expression s := do
      let (e, s₁) ← p.logical_and_expression s
      p.logicalOrLoop e s₁

  -- The `while (true)` loop of `Parser::logical_or_expression`.
  logicalOrLoop e s :=
      let r := s.consume_if .orOr
      if r.1 then do
        let (rhs, s₁) ← p.logical_and_expression r.2
        p.logicalOrLoop (.binOpExpr s₁.loc .logicalOr e rhs) s₁
      else some (e, r.2)

  -- `Parser::conditional_expression` (`src/parser.cpp` lines 197-200).
  conditional_expression s := p.logical_or_expression s

  -- `Parser::assignment_expression` (`src/parser.cpp` lines 202-210):
  -- right-associative `=` via the recursive call on the right operand.
  assignment_expression s := do
      let (e, s₁) ← p.conditional_expression s
      let r := s₁.consume_if .eq
      if r.1 then do
        let (rhs, s₂) ← p.assignment_expression r.2
        some (.assignExpr s₂.loc e rhs, s₂)
      else some (e, r.2)

  -- `Parser::expression` (`src/parser.cpp` lines 212-215).
  expression s := p.assignment_expression s

  -- `Parser::compound_statement` (`src/parser.cpp` lines 217-227).
  compound_statement s :=
      let r := s.consume_if .lbrace
      if r.1 then do
        let loc := r.2.loc
        let (items, s₁) ← p.compoundLoop r.2
        some (.compoundStmt loc items, s₁)
      else none

  -- The `while (!consume_if(RBrace))` loop of `Parser::compound_statement`.
  compoundLoop s :=
      let r := s.consume_if .rbrace
      if r.1 then some ([], r.2)
      else do
        let (st, s₁) ← p.statement r.2
        let (rest, s₂) ← p.compoundLoop s₁
        some (st :: rest, s₂)

  -- `Parser::expression_statement` (`src/parser.cpp` lines 229-234).
  expression_statement s := do
      let (e, s₁) ← p.expression s
      let r := s₁.consume_if .semi
      if r.1 then some (.exprStmt e.loc (some e), r.2) else none

  -- `Parser::if_statement` (`src/parser.cpp` lines 236-252).
  if_statement s :=
      let r := s.consume_if_identifier "if"
      if r.1 then
        let loc := r.2.loc
        let r₁ := r.2.consume_if .lparen
        if r₁.1 then do
          let (e, s₁) ← p.expression r₁.2
          let r₂ := s₁.consume_if .rparen
          if r₂.1 then do
            let (then_, s₂) ← p.statement r₂.2
            let r₃ := s₂.consume_if_identifier "else"
            if r₃.1 then do
              let (else_, s₃) ← p.statement r₃.2
              some (.ifStmt loc e then_ (some else_), s₃)
            else some (.ifStmt loc e then_ none, r₃.2)
          else none
        else none
      else none

  -- `Parser::while_statement` (`src/parser.cpp` lines 254-264).
  while_statement s :=
      let r := s.consume_if_identifier "while"
      if r.1 then
        let loc := r.2.loc
        let r₁ := r.2.consume_if .lparen
        if r₁.1 then do
          let (cond, s₁) ← p.expression r₁.2
          let r₂ := s₁.consume_if .rparen
          if r₂.1 then do
            let (then_, s₂) ← p.statement r₂.2
            some (.loopStmt loc none (some cond) none then_, s₂)
          else none
        else none
      else none

  -- `Parser::for_statement` (`src/parser.cpp` lines 266-287), translated
  -- clause by clause.  Note the increment clause: the source first tests
  -- `!inner.consume_if(RParen)` (consuming the `)` when the increment is
  -- absent) and then unconditionally `ASSERT(inner.consume_if(RParen))`.
  for_statement s :=
      let r := s.consume_if_identifier "for"
      if r.1 then
        let loc := r.2.loc
        let r₁ := r.2.consume_if .lparen
        if r₁.1 then do
          -- if (!inner.consume_if(Semi)) { init = expression(); ASSERT(consume_if(Semi)); }
          let ri := r₁.2.consume_if .semi
          let (init, s₁) ←
            if ri.1 then some ((none : Option Expr), ri.2)
            else do
              let (e, s') ← p.expression ri.2
              let rs := s'.consume_if .semi
              if rs.1 then some (some e, rs.2) else none
          -- if (!inner.consume_if(Semi)) { cond = expression(); ASSERT(consume_if(Semi)); }
          let rc := s₁.consume_if .semi
          let (cond, s₂) ←
            if rc.1 then some ((none : Option Expr), rc.2)
            else do
              let (e, s') ← p.expression rc.2
              let rs := s'.consume_if .semi
              if rs.1 then some (some e, rs.2) else none
          -- if (!inner.consume_if(RParen)) { incr = expression(); }
          let rr := s₂.consume_if .rparen
          let (incr, s₃) ←
            if rr.1 then some ((none : Option Expr), rr.2)
            else do
              let (e, s') ← p.expression rr.2
              some (some e, s')
          -- ASSERT(inner.consume_if(RParen));
          let rr₂ := s₃.consume_if .rparen
          if rr₂.1 then do
            let (then_, s₄) ← p.statement rr₂.2
            some (.loopStmt loc init cond incr then_, s₄)
          else none
        else none
      else none

  -- `Parser::return_statement` (`src/parser.cpp` lines 289-301).  (When the
  -- next token is `;`, the source returns *without* consuming it.)
  return_statement s :=
      let r := s.consume_if_identifier "return"
      if r.1 then
        let loc := r.2.loc
        if r.2.peekIs .semi then some (.returnStmt loc none, r.2)
        else do
          let (e, s₁) ← p.expression r.2
          let r₁ := s₁.consume_if .semi
          if r₁.1 then some (.returnStmt loc (some e), r₁.2) else none
      else none

  -- `Parser::statement` (`src/parser.cpp` lines 303-330).
  statement s :=
      if s.peekIs .semi then
        -- null statement
        let r := s.nextTok
        some (.exprStmt r.2.loc none, r.2)
      else if s.peekIs .lbrace then p.compound_statement s
      else if s.peek_identifier "if" then p.if_statement s
      else if s.peek_identifier "while" then p.while_statement s
      else if s.peek_identifier "for" then p.for_statement s
      else if s.peek_identifier "return" then p.return_statement s
      else if s.peek_identifier "int" then p.declaration s
      else p.expression_statement s

  -- `Parser::declaration` (`src/parser.cpp` lines 332-341).
  declaration s :=
      let r := s.consume_if_identifier "int"
      if r.1 then
        let loc := r.2.loc
        match r.2.peekTok with
        | .identifier _ _ =>
            let r₁ := r.2.nextTok
            match r₁.1 with
            | .identifier _ ident =>
                let r₂ := r₁.2.consume_if .semi
                if r₂.1 then some (.declStmt loc ident, r₂.2) else none
            | _ => none
        | _ => none
      else none


/-- The `Parser` methods at a given fuel. -/
def parserAt : Nat → ParserFns
  | 0 => ParserFns.bottom
  | fuel + 1 => (parserAt fuel).step

/-- `Parser::expression` at a given fuel. -/
def expression (fuel : Nat) (s : ParserState) : Option (Expr × ParserState) :=
  (parserAt fuel).expression s

/-- `Parser::statement` at a given fuel. -/
def statement (fuel : Nat) (s : ParserState) : Option (Stmt × ParserState) :=
  (parserAt fuel).statement s

/-- `Parser::for_statement` at a given fuel. -/
def for_statement (fuel : Nat) (s : ParserState) : Option (Stmt × ParserState) :=
  (parserAt fuel).for_statement s


/-- The location-erased view of an `Expr`, used to state claims about the
operator structure of parsed ASTs (no claim depends on the locations
stored in expression nodes). -/
inductive ExprShape where
  | intConst (value : Nat)
  | var (ident : String)
  | unOp (op : UnOpKind) (e : ExprShape)
  | binOp (op : BinOpKind) (lhs rhs : ExprShape)
  | assign (lhs rhs : ExprShape)
deriving DecidableEq, Repr

/-- Erase the locations of an `Expr`. -/
def Expr.shape : Expr → ExprShape
  | .integerConstantExpr _ v => .intConst v
  | .variableExpr _ ident => .var ident
  | .unOpExpr _ op e => .unOp op e.shape
  | .binOpExpr _ op lhs rhs => .binOp op lhs.shape rhs.shape
  | .assignExpr _ lhs rhs => .assign lhs.shape rhs.shape

/-- The nineteen binary-operator tokens the expression grammar consumes in
infix position: the eighteen `BinOpKind`s plus `=`. -/
inductive OpTok where
  | add | subtract | multiply | divide | modulo | lshift | rshift
  | lessThan | greaterThan | lessThanEqual | greaterThanEqual
  | equal | notEqual | bitAnd | bitXor | bitOr | logicalAnd | logicalOr
  | assign
deriving DecidableEq, Repr

/-- The punctuator that lexes to each infix operator. -/
def OpTok.punct : OpTok → PunctuatorKind
  | .add => .plus
  | .subtract => .minus
  | .multiply => .star
  | .divide => .slash
  | .modulo => .modulo
  | .lshift => .llAngle
  | .rshift => .rrAngle
  | .lessThan => .lAngle
  | .greaterThan => .rAngle
  | .lessThanEqual => .lAngleEq
  | .greaterThanEqual => .rAngleEq
  | .equal => .eqEq
  | .notEqual => .notEq
  | .bitAnd => .and
  | .bitXor => .caret
  | .bitOr => .or
  | .logicalAnd => .andAnd
  | .logicalOr => .orOr
  | .assign => .eq

/-- The AST node each infix operator builds. -/
def OpTok.node : OpTok → ExprShape → ExprShape → ExprShape
  | .add => .binOp .add
  | .subtract => .binOp .subtract
  | .multiply => .binOp .multiply
  | .divide => .binOp .divide
  | .modulo => .binOp .modulo
  | .lshift => .binOp .lshift
  | .rshift => .binOp .rshift
  | .lessThan => .binOp .lessThan
  | .greaterThan => .binOp .greaterThan
  | .lessThanEqual => .binOp .lessThanEqual
  | .greaterThanEqual => .binOp .greaterThanEqual
  | .equal => .binOp .equal
  | .notEqual => .binOp .notEqual
  | .bitAnd => .binOp .bitAnd
  | .bitXor => .binOp .bitXor
  | .bitOr => .binOp .bitOr
  | .logicalAnd => .binOp .logicalAnd
  | .logicalOr => .binOp .logicalOr
  | .assign => .assign

/-- Modelled from the spec: the precedence level of each infix operator per
the documented precedence ladder of §4.3 (lowest = 1 for assignment up to
11 for the multiplicative operators). -/
def OpTok.prec : OpTok → Nat
  | .assign => 1
  | .logicalOr => 2
  | .logicalAnd => 3
  | .bitOr => 4
  | .bitXor => 5
  | .bitAnd => 6
  | .equal | .notEqual => 7
  | .lessThan | .greaterThan | .lessThanEqual | .greaterThanEqual => 8
  | .lshift | .rshift => 9
  | .add | .subtract => 10
  | .multiply | .divide | .modulo => 11

/-- Modelled from the spec: the AST shape the documented precedence table
prescribes for `a op1 b op2 c` — the lower-precedence operator becomes the
outer node; at equal precedence the operators associate to the left
(the left application becomes the inner node) except `=`, which
right-associates. -/
def specShape (op1 op2 : OpTok) (a b c : ExprShape) : ExprShape :=
  if op1.prec < op2.prec then op1.node a (op2.node b c)
  else if op2.prec < op1.prec then op2.node (op1.node a b) c
  else if op1 = .assign then op1.node a (op2.node b c)
  else op2.node (op1.node a b) c

end Smolcc

namespace MainC

/-!
Embedding of `src/main.cpp`, a self-contained earlier revision of the
compiler: it defines its own integer-only token stream, AST
(`IntegerConstantExpr`, `UnOpExpr` with `Posate`/`Negate`, `BinOpExpr`
with the five arithmetic kinds), the code generator `emit_expr`, and the
driver `main`.
-/

/-- `UnOpKind` from `src/main.cpp` (lines 390-393). -/
inductive UnOpKind where
  | posate | negate
deriving DecidableEq, Repr

/-- `BinOpKind` from `src/main.cpp` (lines 403-409). -/
inductive BinOpKind where
  | add | subtract | multiply | divide | modulo
deriving DecidableEq, Repr

/-- The `Expr` hierarchy of `src/main.cpp` (lines 378-418): these nodes
carry no locations.  `uintmax_t value` is modelled as `Nat`; `emit_expr`
masks every 16-bit slice it prints. -/
inductive Expr where
  | integerConstantExpr (value : Nat)
  | unOpExpr (op : UnOpKind) (e : Expr)
  | binOpExpr (op : BinOpKind) (lhs rhs : Expr)
deriving DecidableEq, Repr

/-- One line of assembly text printed by `src/main.cpp`, one constructor
per `fmt::print` call site; `render` below recovers the exact text.  The
driver `main` prints the four preamble lines and the final `ret`;
`emit_expr` prints the rest. -/
inductive Instr where
  | directiveText                     -- ".text"
  | directiveGloblMain                -- ".globl _main"
  | directiveAlign4                   -- ".align 4"
  | labelMain                         -- "_main:"
  | movz (val : Nat)                  -- "movz x0, <val>"
  | movk (val : Nat) (shift : Nat)    -- "movk x0, <val>, lsl <shift>"
  | neg                               -- "neg x0, x0"
  | push                              -- "str x0, [sp, -16]!"
  | pop                               -- "ldr x1, [sp], 16"
  | add                               -- "add x0, x1, x0"
  | sub                               -- "sub x0, x1, x0"
  | mul                               -- "mul x0, x1, x0"
  | udiv0                             -- "udiv x0, x1, x0"
  | udiv2                             -- "udiv x2, x1, x0"
  | msub                              -- "msub x0, x2, x0, x1"
  | ret                               -- "ret"
deriving DecidableEq, Repr

/-- The exact text `src/main.cpp` prints for each `Instr` (the `\n` of each
`fmt::print` is the line separator and is not part of the line). -/
def Instr.render : Instr → String
  | .directiveText => ".text"
  | .directiveGloblMain => ".globl _main"
  | .directiveAlign4 => ".align 4"
  | .labelMain => "_main:"
  | .movz val => "movz x0, " ++ toString val
  | .movk val shift => "movk x0, " ++ toString val ++ ", lsl " ++ toString shift
  | .neg => "neg x0, x0"
  | .push => "str x0, [sp, -16]!"
  | .pop => "ldr x1, [sp], 16"
  | .add => "add x0, x1, x0"
  | .sub => "sub x0, x1, x0"
  | .mul => "mul x0, x1, x0"
  | .udiv0 => "udiv x0, x1, x0"
  | .udiv2 => "udiv x2, x1, x0"
  | .msub => "msub x0, x2, x0, x1"
  | .ret => "ret"

/-- `emit_expr` from `src/main.cpp` (lines 488-544), as the list of lines it
prints.  For an `IntegerConstantExpr` the `movz` of the low 16-bit slice is
unconditional; each `movk` of a higher slice is printed only when that
slice is non-zero (lines 489-497).  The dynamic-cast dispatch becomes a
match; the three `switch`es are exhaustive over the variants that exist. -/
def emit_expr : Expr → List Instr
  | .integerConstantExpr v =>
      [Instr.movz (v &&& 0xFFFF)]
        ++ (if (v >>> 16) &&& 0xFFFF ≠ 0 then [Instr.movk ((v >>> 16) &&& 0xFFFF) 16] else [])
        ++ (if (v >>> 32) &&& 0xFFFF ≠ 0 then [Instr.movk ((v >>> 32) &&& 0xFFFF) 32] else [])
        ++ (if (v >>> 48) &&& 0xFFFF ≠ 0 then [Instr.movk ((v >>> 48) &&& 0xFFFF) 48] else [])
  | .unOpExpr op e =>
      emit_expr e ++
        (match op with
         | .posate => []
         | .negate => [Instr.neg])
  | .binOpExpr op lhs rhs =>
      emit_expr lhs ++ [Instr.push] ++ emit_expr rhs ++ [Instr.pop] ++
        (match op with
         | .add => [Instr.add]
         | .subtract => [Instr.sub]
         | .multiply => [Instr.mul]
         | .divide => [Instr.udiv0]
         | .modulo => [Instr.udiv2, Instr.msub])

/-- The tokens of `src/main.cpp` (lines 83-167): end-of-file, integer
constant, punctuator — no identifiers in this revision.  The `loc` field
is carried but never read by this revision's parser or code generator.
`PunctuatorKind` is identical to the one in `src/lexer.h`. -/
inductive Token where
  | endOfFile (loc : Smolcc.Location)
  | integerConstant (loc : Smolcc.Location) (value : Nat)
  | punctuator (loc : Smolcc.Location) (k : Smolcc.PunctuatorKind)
deriving DecidableEq, Repr

/-- The token source seen by this revision's `Parser`, modelled as the list
of tokens its `TokenStream` produces (an exhausted list stands for the
trailing `EndOfFile`s). -/
def peekTok (ts : List Token) : Token :=
  ts.headD (.endOfFile (Smolcc.Location.start 0))

/-- `TokenStream::consume_if` of `src/main.cpp` (lines 180-186). -/
def consume_if (ts : List Token) (k : Smolcc.PunctuatorKind) : Bool × List Token :=
  match peekTok ts with
  | .punctuator _ k' => if k' = k then (true, ts.tail) else (false, ts)
  | _ => (false, ts)

mutual

/-- `Parser::primary_expression` from `src/main.cpp` (lines 425-435): a
parenthesised expression or an integer constant; anything else fails the
`ASSERT`. -/
def primary_expression : Nat → List Token → Option (Expr × List Token)
  | 0, _ => none
  | fuel + 1, ts =>
      let r := consume_if ts .lparen
      if r.1 then do
        let (result, ts₁) ← expression fuel r.2
        let r₂ := consume_if ts₁ .rparen
        if r₂.1 then some (result, r₂.2) else none
      else
        match peekTok r.2 with
        | .integerConstant _ v => some (.integerConstantExpr v, r.2.tail)
        | _ => none

/-- `Parser::unary_expression` from `src/main.cpp` (lines 437-445). -/
def unary_expression : Nat → List Token → Option (Expr × List Token)
  | 0, _ => none
  | fuel + 1, ts =>
      let r := consume_if ts .plus
      if r.1 then do
        let (e, ts₁) ← unary_expression fuel r.2
        some (.unOpExpr .posate e, ts₁)
      else
        let r₂ := consume_if r.2 .minus
        if r₂.1 then do
          let (e, ts₁) ← unary_expression fuel r₂.2
          some (.unOpExpr .negate e, ts₁)
        else primary_expression fuel r₂.2

/-- `Parser::multiplicative_expression` from `src/main.cpp` (lines 447-460). -/
def multiplicative_expression : Nat → List Token → Option (Expr × List Token)
  | 0, _ => none
  | fuel + 1, ts => do
      let (e, ts₁) ← unary_expression fuel ts
      multiplicativeLoop fuel e ts₁

/-- The `while (true)` loop of `Parser::multiplicative_expression`. -/
def multiplicativeLoop : Nat → Expr → List Token → Option (Expr × List Token)
  | 0, _, _ => none
  | fuel + 1, e, ts =>
      let r := consume_if ts .star
      if r.1 then do
        let (rhs, ts₁) ← unary_expression fuel r.2
        multiplicativeLoop fuel (.binOpExpr .multiply e rhs) ts₁
      else
        let r₂ := consume_if r.2 .slash
        if r₂.1 then do
          let (rhs, ts₁) ← unary_expression fuel r₂.2
          multiplicativeLoop fuel (.binOpExpr .divide e rhs) ts₁
        else
          let r₃ := consume_if r₂.2 .modulo
          if r₃.1 then do
            let (rhs, ts₁) ← unary_expression fuel r₃.2
            multiplicativeLoop fuel (.binOpExpr .modulo e rhs) ts₁
          else some (e, r₃.2)

/-- `Parser::additive_expression` from `src/main.cpp` (lines 462-473). -/
def additive_expression : Nat → List Token → Option (Expr × List Token)
  | 0, _ => none
  | fuel + 1, ts => do
      let (e, ts₁) ← multiplicative_expression fuel ts
      additiveLoop fuel e ts₁

/-- The `while (true)` loop of `Parser::additive_expression`. -/
def additiveLoop : Nat → Expr → List Token → Option (Expr × List Token)
  | 0, _, _ => none
  | fuel + 1, e, ts =>
      let r := consume_if ts .plus
      if r.1 then do
        let (rhs, ts₁) ← multiplicative_expression fuel r.2
        additiveLoop fuel (.binOpExpr .add e rhs) ts₁
      else
        let r₂ := consume_if r.2 .minus
        if r₂.1 then do
          let (rhs, ts₁) ← multiplicative_expression fuel r₂.2
          additiveLoop fuel (.binOpExpr .subtract e rhs) ts₁
        else some (e, r₂.2)

/-- `Parser::expression` from `src/main.cpp` (lines 475-477). -/
def expression : Nat → List Token → Option (Expr × List Token)
  | 0, _ => none
  | fuel + 1, ts => additive_expression fuel ts

end

/-- `main` from `src/main.cpp` (lines 546-562), as the list of lines it
prints on a successful run: `.text`, `.globl _main`, `.align 4`,
`_main:`, then the code for the parsed expression, then `ret`.  The
tokens are those this revision's `TokenStream` produces from `argv[1]`;
a parse failure aborts the process (`none`). -/
def main (fuel : Nat) (ts : List Token) : Option (List Instr) :=
  (expression fuel ts).map fun r =>
    [Instr.directiveText, Instr.directiveGloblMain, Instr.directiveAlign4, Instr.labelMain]
      ++ emit_expr r.1 ++ [Instr.ret]

end MainC

/-- A default starting location, used to build concrete token lists. -/
def loc0 : Smolcc.Location := Smolcc.Location.start 0

/-- The multi-character punctuators of the documented set, paired with the
punctuator kind each lexes to. -/
def multiPuncts : List (String × Smolcc.PunctuatorKind) :=
  [("->", .arrow), ("++", .plusPlus), ("--", .minusMinus),
   ("<<=", .llAngleEq), (">>=", .rrAngleEq), ("<<", .llAngle), (">>", .rrAngle),
   ("<=", .lAngleEq), (">=", .rAngleEq), ("==", .eqEq), ("!=", .notEq),
   ("&&", .andAnd), ("||", .orOr), ("*=", .starEq), ("/=", .slashEq),
   ("%=", .moduloEq), ("+=", .plusEq), ("-=", .minusEq), ("&=", .andEq),
   ("^=", .caretEq), ("|=", .orEq), ("##", .hashHash), ("...", .dotDotDot)]

/-- The C7 invariant, strengthened with the auxiliary fact that the
prospective `next_loc` always has `length = 0` (`get` only ever grows
`current_loc.length`). -/
def csInv (s : Smolcc.CharStream) : Prop :=
  s.current_loc.index + s.current_loc.length = s.next_loc.index
    ∧ s.current_loc.file = s.next_loc.file
    ∧ s.next_loc.length = 0

/-- The characters with a `case` label in the punctuator part of the
dispatch `switch` of `TokenStream::tok` (`src/lexer.cpp` lines 53-200):
the possible first characters of a punctuator token. -/
def punctStart (c : Char) : Bool :=
  decide (c ∈ ['[', ']', '(', ')', Char.ofNat 123, Char.ofNat 125, '.', '&', '|', '^',
               '~', '!', '+', '-', '*', '/', '%', '<', '>', '?', ':', ';', '=', ',', '#'])



/-!
## Theorems

One theorem per claim of the specification review, in claim order.
-/

/-- C1.  For every pair of infix operators `op1, op2`, parsing
`a op1 b op2 c` (with identifier operands) produces the AST shape the
documented precedence table prescribes: the lower-precedence operator is
the outer node, equal precedence associates to the left, and `=`
right-associates (`a = b = c` parses as `Assign(a, Assign(b, c))`), the
whole input being consumed. -/
theorem c1_precedence_assoc :
    ∀ op1 op2 : Smolcc.OpTok,
      (Smolcc.expression 24
          ⟨[.identifier loc0 "a", .punctuator loc0 op1.punct,
            .identifier loc0 "b", .punctuator loc0 op2.punct,
            .identifier loc0 "c"], loc0⟩).map
          (fun r => (r.1.shape, r.2.toks)) =
        some (Smolcc.specShape op1 op2 (.var "a") (.var "b") (.var "c"), []) := by
  intro op1 op2
  cases op1 <;> cases op2 <;> decide

/-- C2.  Evaluating `Parser::statement` on the token sequence of
`for ( ; ; ) ;` hits the failed `ASSERT(inner.consume_if(RParen))` (the
`)` was already consumed by the test guarding the absent increment), so
the parse is fatal; with an increment expression present,
`for ( ; ; 1 ) ;` parses fine. -/
theorem c2_for_empty_incr_fatal :
    (Smolcc.statement 64
        ⟨[.identifier loc0 "for", .punctuator loc0 .lparen, .punctuator loc0 .semi,
          .punctuator loc0 .semi, .punctuator loc0 .rparen, .punctuator loc0 .semi],
         loc0⟩).isNone = true
    ∧ (Smolcc.statement 64
        ⟨[.identifier loc0 "for", .punctuator loc0 .lparen, .punctuator loc0 .semi,
          .punctuator loc0 .semi, .integerConstant loc0 1, .punctuator loc0 .rparen,
          .punctuator loc0 .semi],
         loc0⟩).isSome = true := by
  decide

/-- C5.  Type derivation for `BinOp` with `Add` and `Subtract`: `Add` is
`Invalid` for pointer + pointer, the right operand's type when only the
right operand is a pointer, and the left operand's type otherwise;
`Subtract` is `Int` for pointer − pointer, `Invalid` when only the right
operand is a pointer, and the left operand's type otherwise. -/
theorem c5_add_sub_types :
    ∀ (loc : Smolcc.Location) (l r : Smolcc.Expr),
      ((Smolcc.Expr.binOpExpr loc .add l r).type =
        (if l.type.is_pointer ∧ r.type.is_pointer then Smolcc.make_invalid_type
         else if r.type.is_pointer then r.type
         else l.type))
      ∧ ((Smolcc.Expr.binOpExpr loc .subtract l r).type =
        (if l.type.is_pointer ∧ r.type.is_pointer then Smolcc.make_int_type
         else if r.type.is_pointer then Smolcc.make_invalid_type
         else l.type)) := by
  intro loc l r
  cases hl : l.type.is_pointer <;> cases hr : r.type.is_pointer <;>
    simp [Smolcc.Expr.type, hl, hr]

/-- C3.  Materialising a 64-bit unsigned constant `v` into the register:
`emit_expr` prints at most four instructions, always starting with the
`movz` of the low 16-bit slice (also for `v = 0`), and prints the `movk`
of each higher 16-bit slice (with shift 16, 32, 48) exactly when that
slice is non-zero.  (`v` ranges over all of `Nat`; every unsigned 64-bit
value is included.) -/
theorem c3_constant_materialization :
    ∀ v : Nat,
      (MainC.emit_expr (.integerConstantExpr v)).length ≤ 4
      ∧ (MainC.emit_expr (.integerConstantExpr v)).head? =
          some (.movz (v &&& 0xFFFF))
      ∧ (MainC.Instr.movk ((v >>> 16) &&& 0xFFFF) 16 ∈
            MainC.emit_expr (.integerConstantExpr v) ↔ (v >>> 16) &&& 0xFFFF ≠ 0)
      ∧ (MainC.Instr.movk ((v >>> 32) &&& 0xFFFF) 32 ∈
            MainC.emit_expr (.integerConstantExpr v) ↔ (v >>> 32) &&& 0xFFFF ≠ 0)
      ∧ (MainC.Instr.movk ((v >>> 48) &&& 0xFFFF) 48 ∈
            MainC.emit_expr (.integerConstantExpr v) ↔ (v >>> 48) &&& 0xFFFF ≠ 0) := by
  intro v
  by_cases h16 : (v >>> 16) &&& 0xFFFF = 0 <;>
    by_cases h32 : (v >>> 32) &&& 0xFFFF = 0 <;>
      by_cases h48 : (v >>> 48) &&& 0xFFFF = 0 <;>
        simp [MainC.emit_expr, h16, h32, h48]

/-- C4 (failing evaluation).  Lexing the maximal digit run
`18446744073709551615` (= `2^64 - 1`, representable in an unsigned 64-bit
integer) produces an `IntegerConstant` token whose value is
`9223372036854775807` (= `2^63 - 1`): the conversion goes through
`std::atoll`, which parses a *signed* `long long` and (under glibc)
saturates at `LLONG_MAX`, so the token value is not the value of the
digit string. -/
theorem c4_atoll_saturates :
    ((Smolcc.TokenStream.start 0 "18446744073709551615").tok 32).map (fun r => r.1) =
        some (.integerConstant ⟨0, 1, 1, 0, 20⟩ 9223372036854775807)
      ∧ (9223372036854775807 : Nat) ≠ 18446744073709551615 := by
  decide

/-- C8 (counterexample).  A successful compile of the source `42`: the
emitted lines are exactly `.text`, `.globl _main`, `.align 4`, `_main:`,
`movz x0, 42`, `ret` — there is no `.file 1 "stdin"` directive, no
`mov fp, sp` / `sub sp, sp, 256` prologue and no `add sp, sp, 256`
epilogue, contradicting the claimed preamble/postscript. -/
theorem c8_no_file_directive_no_prologue :
    MainC.main 8 [.integerConstant loc0 42] =
        some [.directiveText, .directiveGloblMain, .directiveAlign4, .labelMain,
              .movz 42, .ret]
      ∧ ((MainC.main 8 [.integerConstant loc0 42]).getD []).map MainC.Instr.render =
          [".text", ".globl _main", ".align 4", "_main:", "movz x0, 42", "ret"]
      ∧ ".file 1 \"stdin\"" ∉
          ((MainC.main 8 [.integerConstant loc0 42]).getD []).map MainC.Instr.render
      ∧ "mov fp, sp" ∉
          ((MainC.main 8 [.integerConstant loc0 42]).getD []).map MainC.Instr.render
      ∧ "sub sp, sp, 256" ∉
          ((MainC.main 8 [.integerConstant loc0 42]).getD []).map MainC.Instr.render
      ∧ "add sp, sp, 256" ∉
          ((MainC.main 8 [.integerConstant loc0 42]).getD []).map MainC.Instr.render := by
  decide

/-- C8 (amended).  On a successful compile, the emitted assembly is
bracketed by the preamble `.text`, `.globl _main`, `.align 4`, `_main:`
and by a postscript consisting of a single final `ret`. -/
theorem c8_output_bracketing (fuel : Nat) (toks : List MainC.Token)
    (out : List MainC.Instr) (h : MainC.main fuel toks = some out) :
    ∃ body,
      out = [MainC.Instr.directiveText, MainC.Instr.directiveGloblMain,
             MainC.Instr.directiveAlign4, MainC.Instr.labelMain]
              ++ body ++ [MainC.Instr.ret] := by
  unfold MainC.main at h
  cases he : MainC.expression fuel toks with
  | none => rw [he] at h; exact absurd h (by simp)
  | some r =>
      rw [he] at h
      simp only [Option.map_some', Option.some.injEq] at h
      exact ⟨MainC.emit_expr r.1, h.symm⟩

/-- Witness for `c8_output_bracketing` at the compile of `42`. -/
theorem c8_output_bracketing_witness :
    MainC.main 8 [.integerConstant loc0 42] =
        some [.directiveText, .directiveGloblMain, .directiveAlign4, .labelMain,
              .movz 42, .ret]
    ∧ ∃ body,
        [MainC.Instr.directiveText, MainC.Instr.directiveGloblMain,
         MainC.Instr.directiveAlign4, MainC.Instr.labelMain, MainC.Instr.movz 42,
         MainC.Instr.ret]
          = [MainC.Instr.directiveText, MainC.Instr.directiveGloblMain,
             MainC.Instr.directiveAlign4, MainC.Instr.labelMain]
              ++ body ++ [MainC.Instr.ret] :=
  ⟨by decide,
   c8_output_bracketing 8 [.integerConstant loc0 42]
     [.directiveText, .directiveGloblMain, .directiveAlign4, .labelMain, .movz 42, .ret]
     (by decide)⟩

/-- C6.  Longest match: on any input starting with the punctuation prefix
`<<=` the lexer emits the single token `LLAngleEq` spanning all three
characters (so never `<<` followed by `=`), whatever follows; and every
multi-character punctuator of the documented set, lexed on its own,
yields exactly its single token followed by `EndOfFile`. -/
theorem c6_longest_match :
    (∀ rest : List Char,
        (Smolcc.tokCore 4 (Smolcc.CharStream.start 0 ('<' :: '<' :: '=' :: rest))
            (Smolcc.Location.start 0)).map (fun r => r.1) =
          some (.punctuator ⟨0, 1, 1, 0, 3⟩ .llAngleEq))
    ∧ (∀ pk ∈ multiPuncts,
        ((Smolcc.TokenStream.start 0 pk.1).tok 8).map
            (fun r => (r.1, (r.2.tok 8).map (fun r₂ => r₂.1))) =
          some (.punctuator ⟨0, 1, 1, 0, pk.1.length⟩ pk.2,
                some (.endOfFile ⟨0, 1, 1, 0, pk.1.length⟩))) := by
  constructor
  · intro rest; rfl
  · decide

/-- `CharStream::get` preserves the strengthened C7 invariant. -/
theorem csInv_get (s : Smolcc.CharStream) (h : csInv s) : csInv (s.get).2 := by
  unfold csInv Smolcc.CharStream.get at *
  rcases hp : s.peek with _ | ch
  · simpa [hp] using h
  · obtain ⟨h1, h2, h3⟩ := h
    simp only [hp]
    split_ifs <;> simp <;> omega

/-- `CharStream::consume_if` preserves the strengthened C7 invariant. -/
theorem csInv_consume_if (s : Smolcc.CharStream) (ch : Char) (h : csInv s) :
    csInv (s.consume_if ch).2 := by
  unfold Smolcc.CharStream.consume_if
  split_ifs
  · exact csInv_get s h
  · exact h

/-- `CharStream::new_loc` preserves the strengthened C7 invariant. -/
theorem csInv_new_loc (s : Smolcc.CharStream) (h : csInv s) : csInv s.new_loc := by
  obtain ⟨h1, h2, h3⟩ := h
  exact ⟨by simpa [Smolcc.CharStream.new_loc] using h3, rfl, h3⟩

/-- C7.  On every `CharStream` state reachable by any sequence of
`peek` / `get` / `consume_if` / `new_loc` calls from a freshly
constructed stream, `current.index + current.length = next.index` and
`current.file = next.file`. -/
theorem c7_charstream_invariant (s : Smolcc.CharStream)
    (h : Smolcc.CharStream.Reachable s) :
    s.current_loc.index + s.current_loc.length = s.next_loc.index
      ∧ s.current_loc.file = s.next_loc.file := by
  have hinv : csInv s := by
    induction h with
    | start file contents => exact ⟨rfl, rfl, rfl⟩
    | get s' _ ih => exact csInv_get s' ih
    | consume_if s' ch _ ih => exact csInv_consume_if s' ch ih
    | new_loc s' _ ih => exact csInv_new_loc s' ih
  exact ⟨hinv.1, hinv.2.1⟩

/-- Witness for `c7_charstream_invariant` at a concretely reached state
(construct over `"ab"`, `get` one character, then `new_loc`). -/
theorem c7_charstream_invariant_witness :
    ((((Smolcc.CharStream.start 0 "ab".toList).get).2.new_loc).current_loc.index
        + (((Smolcc.CharStream.start 0 "ab".toList).get).2.new_loc).current_loc.length
      = (((Smolcc.CharStream.start 0 "ab".toList).get).2.new_loc).next_loc.index)
    ∧ (((Smolcc.CharStream.start 0 "ab".toList).get).2.new_loc).current_loc.file
        = (((Smolcc.CharStream.start 0 "ab".toList).get).2.new_loc).next_loc.file :=
  c7_charstream_invariant _
    (Smolcc.CharStream.Reachable.new_loc _
      (Smolcc.CharStream.Reachable.get _
        (Smolcc.CharStream.Reachable.start 0 "ab".toList)))

/-- C10.  `peek` is idempotent and agrees with `next`: whenever `peek`
returns token `t` leaving state `ts'`, peeking again returns the same
token and the very same state (no further input is consumed), and `next`
on that state returns exactly `t`, clearing only the lookahead slot. -/
theorem c10_peek_idempotent (fuel : Nat) (ts : Smolcc.TokenStream)
    (t : Smolcc.Token) (ts' : Smolcc.TokenStream)
    (h : ts.peek fuel = some (t, ts')) :
    ts'.peek fuel = some (t, ts')
      ∧ ts'.next fuel = some (t, { ts' with current := none }) := by
  unfold Smolcc.TokenStream.peek at h
  cases hc : ts.current with
  | some u =>
      rw [hc] at h
      simp only [Option.some.injEq, Prod.mk.injEq] at h
      obtain ⟨rfl, rfl⟩ := h
      constructor
      · unfold Smolcc.TokenStream.peek
        rw [hc]
      · unfold Smolcc.TokenStream.next
        rw [hc]
  | none =>
      rw [hc] at h
      cases htok : ts.tok fuel with
      | none => rw [htok] at h; exact absurd h (by simp)
      | some r =>
          rw [htok] at h
          simp only [Option.map_some', Option.some.injEq, Prod.mk.injEq] at h
          obtain ⟨rfl, rfl⟩ := h
          constructor
          · unfold Smolcc.TokenStream.peek
            rfl
          · unfold Smolcc.TokenStream.next
            rfl

/-- Witness for `c10_peek_idempotent`: peeking `1` on a fresh stream over
the source `"1"`. -/
theorem c10_peek_idempotent_witness :
    (Smolcc.TokenStream.start 0 "1").peek 8 =
        some (.integerConstant ⟨0, 1, 1, 0, 1⟩ 1,
              ⟨some (.integerConstant ⟨0, 1, 1, 0, 1⟩ 1), ⟨0, 1, 1, 0, 0⟩,
               ⟨['1'], ⟨0, 1, 1, 0, 1⟩, ⟨0, 1, 2, 1, 0⟩⟩⟩)
    ∧ ((Smolcc.TokenStream.mk (some (.integerConstant ⟨0, 1, 1, 0, 1⟩ 1))
          ⟨0, 1, 1, 0, 0⟩ ⟨['1'], ⟨0, 1, 1, 0, 1⟩, ⟨0, 1, 2, 1, 0⟩⟩).peek 8 =
        some (.integerConstant ⟨0, 1, 1, 0, 1⟩ 1,
              ⟨some (.integerConstant ⟨0, 1, 1, 0, 1⟩ 1), ⟨0, 1, 1, 0, 0⟩,
               ⟨['1'], ⟨0, 1, 1, 0, 1⟩, ⟨0, 1, 2, 1, 0⟩⟩⟩)
      ∧ (Smolcc.TokenStream.mk (some (.integerConstant ⟨0, 1, 1, 0, 1⟩ 1))
          ⟨0, 1, 1, 0, 0⟩ ⟨['1'], ⟨0, 1, 1, 0, 1⟩, ⟨0, 1, 2, 1, 0⟩⟩).next 8 =
        some (.integerConstant ⟨0, 1, 1, 0, 1⟩ 1,
              Smolcc.TokenStream.mk none ⟨0, 1, 1, 0, 0⟩
                ⟨['1'], ⟨0, 1, 1, 0, 1⟩, ⟨0, 1, 2, 1, 0⟩⟩)) :=
  ⟨by decide,
   c10_peek_idempotent 8 (Smolcc.TokenStream.start 0 "1")
     (.integerConstant ⟨0, 1, 1, 0, 1⟩ 1)
     (Smolcc.TokenStream.mk (some (.integerConstant ⟨0, 1, 1, 0, 1⟩ 1))
       ⟨0, 1, 1, 0, 0⟩ ⟨['1'], ⟨0, 1, 1, 0, 1⟩, ⟨0, 1, 2, 1, 0⟩⟩)
     (by decide)⟩

/-- Witness for `c6_longest_match`: the arrow punctuator `->`. -/
theorem c6_longest_match_witness :
    (("->", Smolcc.PunctuatorKind.arrow) ∈ multiPuncts)
    ∧ ((Smolcc.TokenStream.start 0 "->").tok 8).map
          (fun r => (r.1, (r.2.tok 8).map (fun r₂ => r₂.1))) =
        some (.punctuator ⟨0, 1, 1, 0, ("->" : String).length⟩ .arrow,
              some (.endOfFile ⟨0, 1, 1, 0, ("->" : String).length⟩)) :=
  ⟨by decide, c6_longest_match.2 ("->", .arrow) (by decide)⟩

/-- A `get` on an engaged stream keeps the contents and advances the index. -/
theorem get_contents_index (s : Smolcc.CharStream) (c : Char) (h : s.peek = some c) :
    (s.get).2.contents = s.contents ∧ (s.get).2.next_loc.index = s.next_loc.index + 1 := by
  unfold Smolcc.CharStream.get
  rw [h]
  constructor <;> simp <;> split_ifs <;> rfl

/-- The lookahead after a `get` is the character one past the current index. -/
theorem get_peek (s : Smolcc.CharStream) (c : Char) (h : s.peek = some c) :
    (s.get).2.peek = s.contents[s.next_loc.index + 1]? := by
  unfold Smolcc.CharStream.peek
  rw [(get_contents_index s c h).1, (get_contents_index s c h).2, List.get?_eq_getElem?]

/-- The test a `consume_if` performs. -/
theorem consume_if_fst (s : Smolcc.CharStream) (ch : Char) :
    (s.consume_if ch).1 = decide (s.peek = some ch) := by
  unfold Smolcc.CharStream.consume_if
  split_ifs with h <;> simp [h]

/-- A punctuator-start character other than `/` and `.` always yields a token. -/
theorem dispatch_punct_ne_none (fuel : Nat) (c : Char) (s : Smolcc.CharStream)
    (hp : punctStart c = true) (h1 : c ≠ '/') (h2 : c ≠ '.') :
    Smolcc.dispatch fuel c s ≠ none := by
  simp [punctStart] at hp
  rcases hp with rfl | rfl | rfl | rfl | rfl | rfl | rfl | rfl | rfl | rfl | rfl | rfl |
    rfl | rfl | rfl | rfl | rfl | rfl | rfl | rfl | rfl | rfl | rfl | rfl | rfl <;>
    first
      | exact absurd rfl h1
      | exact absurd rfl h2
      | (unfold Smolcc.dispatch; simp +decide; done)
      | (unfold Smolcc.dispatch; simp +decide; split_ifs <;> simp)

/-- A decimal digit always yields a token. -/
theorem dispatch_digit_ne_none (fuel : Nat) (c : Char) (s : Smolcc.CharStream)
    (hd : Smolcc.isdecimaldigit (some c) = true) :
    Smolcc.dispatch fuel c s ≠ none := by
  unfold Smolcc.dispatch
  rw [if_pos hd]
  simp

/-- An identifier-start character always yields a token. -/
theorem dispatch_ident_ne_none (fuel : Nat) (c : Char) (s : Smolcc.CharStream)
    (hd : Smolcc.isdecimaldigit (some c) = false) (hi : Smolcc.isidentifiernondigit (some c) = true) :
    Smolcc.dispatch fuel c s ≠ none := by
  unfold Smolcc.dispatch
  rw [if_neg (by simp [hd]), if_pos hi]
  simp

/-- Dispatch on `/` is fatal exactly when the next character is a second `/`
(the comment case). -/
theorem dispatch_slash (fuel : Nat) (s : Smolcc.CharStream) (hpeek : s.peek = some '/') :
    (Smolcc.dispatch fuel '/' s = none ↔
      s.contents[s.next_loc.index + 1]? = some '/') := by
  unfold Smolcc.dispatch
  simp +decide only []
  have hc : ((s.get).2.consume_if '/').1 =
      decide (s.contents[s.next_loc.index + 1]? = some '/') := by
    rw [consume_if_fst, get_peek s '/' hpeek]
  rw [hc]
  by_cases h : s.contents[s.next_loc.index + 1]? = some '/'
  · simp [h]
  · simp [h]
    split_ifs <;> simp

/-- Dispatch on `.` is fatal exactly when a second `.` follows without a
third one (the failed `ASSERT` inside the `...` case). -/
theorem dispatch_dot (fuel : Nat) (s : Smolcc.CharStream) (hpeek : s.peek = some '.') :
    (Smolcc.dispatch fuel '.' s = none ↔
      (s.contents[s.next_loc.index + 1]? = some '.'
        ∧ s.contents[s.next_loc.index + 2]? ≠ some '.')) := by
  unfold Smolcc.dispatch
  simp +decide only []
  have hc1 : ((s.get).2.consume_if '.').1 =
      decide (s.contents[s.next_loc.index + 1]? = some '.') := by
    rw [consume_if_fst, get_peek s '.' hpeek]
  rw [hc1]
  by_cases h1 : s.contents[s.next_loc.index + 1]? = some '.'
  · have hpk1 : (s.get).2.peek = some '.' := by rw [get_peek s '.' hpeek]; exact h1
    have e1 : ((s.get).2.consume_if '.').2 = ((s.get).2.get).2 := by
      unfold Smolcc.CharStream.consume_if
      rw [if_pos hpk1]
    have hpk2 : ((s.get).2.get).2.peek = s.contents[s.next_loc.index + 2]? := by
      rw [get_peek (s.get).2 '.' hpk1,
          (get_contents_index s '.' hpeek).1, (get_contents_index s '.' hpeek).2]
    have hc2 : (((s.get).2.consume_if '.').2.consume_if '.').1 =
        decide (s.contents[s.next_loc.index + 2]? = some '.') := by
      rw [e1, consume_if_fst, hpk2]
    rw [hc2]
    by_cases h2 : s.contents[s.next_loc.index + 2]? = some '.'
    · simp [h1, h2]
    · simp [h1, h2]
  · simp [h1]

/-- A character recognised by no `case` label falls through to
`std::terminate()`. -/
theorem dispatch_default_none (fuel : Nat) (c : Char) (s : Smolcc.CharStream)
    (hd : Smolcc.isdecimaldigit (some c) = false) (hi : Smolcc.isidentifiernondigit (some c) = false)
    (hp : punctStart c = false) :
    Smolcc.dispatch fuel c s = none := by
  simp only [punctStart, decide_eq_false_iff_not, List.mem_cons, List.not_mem_nil,
    or_false, not_or] at hp
  unfold Smolcc.dispatch
  simp [hd, hi, hp.1, hp.2.1, hp.2.2.1, hp.2.2.2.1, hp.2.2.2.2.1, hp.2.2.2.2.2.1,
    hp.2.2.2.2.2.2.1, hp.2.2.2.2.2.2.2.1, hp.2.2.2.2.2.2.2.2.1,
    hp.2.2.2.2.2.2.2.2.2.1, hp.2.2.2.2.2.2.2.2.2.2.1,
    hp.2.2.2.2.2.2.2.2.2.2.2.1, hp.2.2.2.2.2.2.2.2.2.2.2.2.1,
    hp.2.2.2.2.2.2.2.2.2.2.2.2.2.1, hp.2.2.2.2.2.2.2.2.2.2.2.2.2.2.1,
    hp.2.2.2.2.2.2.2.2.2.2.2.2.2.2.2.1, hp.2.2.2.2.2.2.2.2.2.2.2.2.2.2.2.2.1,
    hp.2.2.2.2.2.2.2.2.2.2.2.2.2.2.2.2.2.1,
    hp.2.2.2.2.2.2.2.2.2.2.2.2.2.2.2.2.2.2.1,
    hp.2.2.2.2.2.2.2.2.2.2.2.2.2.2.2.2.2.2.2.1,
    hp.2.2.2.2.2.2.2.2.2.2.2.2.2.2.2.2.2.2.2.2.1,
    hp.2.2.2.2.2.2.2.2.2.2.2.2.2.2.2.2.2.2.2.2.2.1,
    hp.2.2.2.2.2.2.2.2.2.2.2.2.2.2.2.2.2.2.2.2.2.2.1,
    hp.2.2.2.2.2.2.2.2.2.2.2.2.2.2.2.2.2.2.2.2.2.2.2.1,
    hp.2.2.2.2.2.2.2.2.2.2.2.2.2.2.2.2.2.2.2.2.2.2.2.2]

/-- Full characterisation of the fatal outcomes of the Smolcc.dispatch `switch`. -/
theorem dispatch_none_iff (fuel : Nat) (c : Char) (s : Smolcc.CharStream)
    (hpeek : s.peek = some c) :
    (Smolcc.dispatch fuel c s = none ↔
      ((Smolcc.isdecimaldigit (some c) = false ∧ Smolcc.isidentifiernondigit (some c) = false
          ∧ punctStart c = false)
       ∨ (c = '/' ∧ s.contents[s.next_loc.index + 1]? = some '/')
       ∨ (c = '.' ∧ s.contents[s.next_loc.index + 1]? = some '.'
            ∧ s.contents[s.next_loc.index + 2]? ≠ some '.'))) := by
  by_cases hd : Smolcc.isdecimaldigit (some c) = true
  · apply iff_of_false (dispatch_digit_ne_none fuel c s hd)
    rintro (⟨h, _, _⟩ | ⟨rfl, _⟩ | ⟨rfl, _, _⟩)
    · rw [hd] at h; simp at h
    · exact absurd hd (by decide)
    · exact absurd hd (by decide)
  · rw [Bool.not_eq_true] at hd
    by_cases hi : Smolcc.isidentifiernondigit (some c) = true
    · apply iff_of_false (dispatch_ident_ne_none fuel c s hd hi)
      rintro (⟨_, h, _⟩ | ⟨rfl, _⟩ | ⟨rfl, _, _⟩)
      · rw [hi] at h; simp at h
      · exact absurd hi (by decide)
      · exact absurd hi (by decide)
    · rw [Bool.not_eq_true] at hi
      by_cases hs : c = '/'
      · subst hs
        rw [dispatch_slash fuel s hpeek]
        constructor
        · intro h; exact Or.inr (Or.inl ⟨rfl, h⟩)
        · rintro (⟨_, _, h⟩ | ⟨_, h⟩ | ⟨h, _, _⟩)
          · exact absurd h (by decide)
          · exact h
          · exact absurd h (by decide)
      · by_cases hdot : c = '.'
        · subst hdot
          rw [dispatch_dot fuel s hpeek]
          constructor
          · intro h; exact Or.inr (Or.inr ⟨rfl, h.1, h.2⟩)
          · rintro (⟨_, _, h⟩ | ⟨h, _⟩ | ⟨_, h1, h2⟩)
            · exact absurd h (by decide)
            · exact absurd h (by decide)
            · exact ⟨h1, h2⟩
        · by_cases hp : punctStart c = true
          · apply iff_of_false (dispatch_punct_ne_none fuel c s hp hs hdot)
            rintro (⟨_, _, h⟩ | ⟨rfl, _⟩ | ⟨rfl, _, _⟩)
            · rw [hp] at h; simp at h
            · exact absurd rfl hs
            · exact absurd rfl hdot
          · rw [Bool.not_eq_true] at hp
            apply iff_of_true (dispatch_default_none fuel c s hd hi hp)
            exact Or.inl ⟨hd, hi, hp⟩

/-- A `get` never changes the contents. -/
theorem get_contents_any (s : Smolcc.CharStream) : (s.get).2.contents = s.contents := by
  unfold Smolcc.CharStream.get
  cases hp : s.peek
  · rfl
  · simp

/-- With enough fuel, the whitespace-skipping loop stops at a
non-whitespace character (or at end of input). -/
theorem skipWs_not_space (fuel : Nat) (s : Smolcc.CharStream)
    (h : s.contents.length - s.next_loc.index ≤ fuel) :
    Smolcc.isspace (Smolcc.skipWs fuel s).peek = false := by
  induction fuel generalizing s with
  | zero =>
      have hle : s.contents.length ≤ s.next_loc.index := by omega
      have hp : s.peek = none := by
        unfold Smolcc.CharStream.peek
        exact List.get?_eq_none.mpr hle
      unfold Smolcc.skipWs
      rw [hp]
      rfl
  | succ fuel ih =>
      unfold Smolcc.skipWs
      by_cases hsp : Smolcc.isspace s.peek = true
      · rw [if_pos hsp]
        apply ih
        have hpk : s.peek ≠ none := by
          intro hn; rw [hn] at hsp; exact absurd hsp (by decide)
        obtain ⟨c, hc⟩ := Option.ne_none_iff_exists'.mp hpk
        have hidx : s.next_loc.index < s.contents.length := by
          by_contra hge
          exact hpk (by unfold Smolcc.CharStream.peek; exact List.get?_eq_none.mpr (by omega))
        rw [get_contents_any, (get_contents_index s c hc).2]
        omega
      · rw [if_neg hsp]
        simpa using hsp

/-- C9 (amended).  With fuel covering the input, producing a token fails
fatally exactly when the first character `c` after whitespace skipping
falls in one of *three* classes: (i) `c` is not whitespace, not a decimal
digit, not an identifier character and not the start of a recognised
punctuator (this includes every non-ASCII character); (ii) `c` starts a
leading `//` (comments not implemented); (iii) `c` starts a `..` that is
not followed by a third `.` (the failed `ASSERT` of the `...` case).  On
every other input the lexer returns a token. -/
theorem c9_lex_fatal_iff (fuel : Nat) (s : Smolcc.CharStream) (last : Smolcc.Location)
    (hfuel : s.contents.length ≤ fuel) :
    (Smolcc.tokCore fuel s last = none ↔
      ∃ c, (Smolcc.skipWs fuel s).peek = some c ∧
        ((Smolcc.isspace (some c) = false ∧ Smolcc.isdecimaldigit (some c) = false
            ∧ Smolcc.isidentifiernondigit (some c) = false ∧ punctStart c = false)
         ∨ (c = '/' ∧ (Smolcc.skipWs fuel s).contents[(Smolcc.skipWs fuel s).next_loc.index + 1]? = some '/')
         ∨ (c = '.' ∧ (Smolcc.skipWs fuel s).contents[(Smolcc.skipWs fuel s).next_loc.index + 1]? = some '.'
              ∧ (Smolcc.skipWs fuel s).contents[(Smolcc.skipWs fuel s).next_loc.index + 2]? ≠ some '.'))) := by
  have hnw : Smolcc.isspace (Smolcc.skipWs fuel s).peek = false :=
    skipWs_not_space fuel s (by omega)
  cases hpk : (Smolcc.skipWs fuel s).peek with
  | none =>
      have hbody : Smolcc.tokCore fuel s last =
          some (.endOfFile (Smolcc.skipWs fuel s).loc, Smolcc.skipWs fuel s, last) := by
        unfold Smolcc.tokCore
        simp only [hpk]
      rw [hbody]
      simp
  | some c =>
      have hbody : Smolcc.tokCore fuel s last =
          Option.map (fun r => (r.1, r.2, (Smolcc.skipWs fuel s).new_loc.loc))
            (Smolcc.dispatch fuel c (Smolcc.skipWs fuel s).new_loc) := by
        unfold Smolcc.tokCore
        simp only [hpk]
      have hpeek₂ : (Smolcc.skipWs fuel s).new_loc.peek = some c := hpk
      have hiff := dispatch_none_iff fuel c ((Smolcc.skipWs fuel s).new_loc) hpeek₂
      have hsp : Smolcc.isspace (some c) = false := by rw [← hpk]; exact hnw
      rw [hbody]
      constructor
      · intro h
        have hd := hiff.mp (Option.map_eq_none'.mp h)
        refine ⟨c, rfl, ?_⟩
        rcases hd with ⟨h1, h2, h3⟩ | h' | h'
        · exact Or.inl ⟨hsp, h1, h2, h3⟩
        · exact Or.inr (Or.inl h')
        · exact Or.inr (Or.inr h')
      · rintro ⟨c', hc', hcond⟩
        obtain rfl : c' = c := by injection hc' with h; exact h.symm
        apply Option.map_eq_none'.mpr
        apply hiff.mpr
        rcases hcond with ⟨_, h1, h2, h3⟩ | h' | h'
        · exact Or.inl ⟨h1, h2, h3⟩
        · exact Or.inr (Or.inl h')
        · exact Or.inr (Or.inr h')

/-- C9 (counterexample).  The input `..;` begins with `.`, which is the
start of a recognised punctuator (and is not whitespace, not a digit, not
an identifier character, and the input does not start with `//`), yet the
lexer aborts on it with no token produced: fatal lexing is not confined
to the two claimed classes. -/
theorem c9_dotdot_counterexample :
    (Smolcc.TokenStream.start 0 "..;").tok 8 = none
    ∧ punctStart '.' = true
    ∧ Smolcc.isspace (some '.') = false
    ∧ Smolcc.isdecimaldigit (some '.') = false
    ∧ Smolcc.isidentifiernondigit (some '.') = false
    ∧ "..;".toList.take 2 ≠ ['/', '/'] := by
  decide

/-- Witness for `c9_lex_fatal_iff` on the input `..;` with fuel 8. -/
theorem c9_lex_fatal_iff_witness :
    ("..;".toList : List Char).length ≤ 8
    ∧ (Smolcc.tokCore 8 (Smolcc.CharStream.start 0 "..;".toList) loc0 = none ↔
        ∃ c, (Smolcc.skipWs 8 (Smolcc.CharStream.start 0 "..;".toList)).peek = some c ∧
          ((Smolcc.isspace (some c) = false ∧ Smolcc.isdecimaldigit (some c) = false
              ∧ Smolcc.isidentifiernondigit (some c) = false ∧ punctStart c = false)
           ∨ (c = '/' ∧ (Smolcc.skipWs 8 (Smolcc.CharStream.start 0 "..;".toList)).contents[(Smolcc.skipWs 8 (Smolcc.CharStream.start 0 "..;".toList)).next_loc.index + 1]? = some '/')
           ∨ (c = '.' ∧ (Smolcc.skipWs 8 (Smolcc.CharStream.start 0 "..;".toList)).contents[(Smolcc.skipWs 8 (Smolcc.CharStream.start 0 "..;".toList)).next_loc.index + 1]? = some '.'
                ∧ (Smolcc.skipWs 8 (Smolcc.CharStream.start 0 "..;".toList)).contents[(Smolcc.skipWs 8 (Smolcc.CharStream.start 0 "..;".toList)).next_loc.index + 2]? ≠ some '.'))) :=
  ⟨by decide,
   c9_lex_fatal_iff 8 (Smolcc.CharStream.start 0 "..;".toList) loc0 (by decide)⟩
